import Mathlib

/-!
Verification development for the goprocess repository: a channel-based
process supervisor. The repository snapshot contains three variants of the
supervision core:

* `Interfaces` — `StartProcess` (merged mode): stdout lines are parsed into
  messages, stderr is piped to a diagnostic sink, a coordinator selects over
  the completion signals of the stdin writer, the stdout reader and the
  process runner.
* `V1` — the coordinator variant of `NewProcess` (split mode): raw-byte
  stdout/stderr readers with completion signals, a four-way coordinator
  select, and a signal relay.
* `V2` — the current `NewProcess` (split mode): no coordinator; closing the
  input channel closes the child's stdin pipe; readers close their output
  channels but raise no completion signals.

Each concurrently-scheduled task of the Go source is embedded as a pure
function from the data it consumes in one run (the messages received on a
channel before the channel is closed, or the bytes delivered by a pipe
before EOF) to the list of observable actions it performs, in order.
-/

namespace GoProcess

/-- A byte, as carried by Go byte slices (values 0–255; the model does not
need the bound). -/
abbrev Byte := Nat

/-- The contents of a Go `[]byte` value. -/
abbrev Bytes := List Nat

/-- A concrete `syscall.Signal` value. -/
inductive SigNum where
  | sigint
  | sigterm
  | sigkill
  | other (n : Nat)
  deriving DecidableEq, Repr

/-- An `os.Signal` interface value: its dynamic type is either the concrete
`syscall.Signal` or some other implementation of the interface. -/
inductive OsSignal where
  | syscallSig (s : SigNum)
  | nonSyscall (name : String)
  deriving DecidableEq, Repr

/-- Whether the dynamic type of an `os.Signal` value is `syscall.Signal`. -/
def OsSignal.isSyscallSig : OsSignal → Bool
  | OsSignal.syscallSig _ => true
  | OsSignal.nonSyscall _ => false

/-- A run-time panic, as raised by an unchecked Go type assertion. -/
inductive GoPanic where
  | typeAssertion (dynamicType : String)
  deriving DecidableEq, Repr

/-- The two output streams of the child. -/
inductive StreamId where
  | stdout
  | stderr
  deriving DecidableEq, Repr

/-- The concurrent tasks started by the supervisor entry points. -/
inductive TaskId where
  | stdinTask
  | stdoutTask
  | stderrTask
  | processTask
  | signalTask
  | coordTask
  deriving DecidableEq, Repr

/-- Observable actions performed by the supervision tasks:
pipe writes together with their success, closing the child's stdin pipe,
emitting a message on an output channel, closing an output channel, log
output, raising a completion signal on a done slot, piping a stderr line to
the diagnostic sink, and `syscall.Kill` with the integer pid argument the
source passes (a negative argument addresses the process group). -/
inductive Action where
  | write (data : Bytes) (ok : Bool)
  | logWriteError
  | closeStdinPipe
  | emit (s : StreamId) (data : Bytes)
  | logParseError
  | closeChan (s : StreamId)
  | doneSignal (t : TaskId)
  | diag (data : Bytes)
  | kill (pidArg : Int) (s : SigNum)
  deriving DecidableEq, Repr

/-- The integer pid argument of a kill action, if any. -/
def Action.killArg : Action → Option Int
  | Action.kill p _ => some p
  | _ => none

/-- Whether an action is a stdin-pipe write attempt. -/
def Action.isWrite : Action → Bool
  | Action.write _ _ => true
  | _ => false

/-- Whether an action is a `syscall.Kill`. -/
def Action.isKill : Action → Bool
  | Action.kill _ _ => true
  | _ => false

/-- The messages a trace emits on the stdout output channel, in order. -/
def emittedStdout (trace : List Action) : List Bytes :=
  trace.filterMap fun a =>
    match a with
    | Action.emit StreamId.stdout d => some d
    | _ => none

/-- Every kill in the trace addresses the child's process group: its pid
argument is the negated child pid, a negative number. -/
def GroupAddressed (pid : Int) (trace : List Action) : Prop :=
  ∀ p ∈ trace.filterMap Action.killArg, p = -pid ∧ p < 0

/-- `dropCR` of `bufio.ScanLines`: strip one trailing carriage return. -/
def dropCR (l : Bytes) : Bytes :=
  if l.getLast? = some 13 then l.dropLast else l

/-- Helper for `scanLines`: walks the pipe bytes, `acc` holding the bytes of
the current line in reverse. A final non-empty segment without a trailing
newline is returned as a token, as `bufio.ScanLines` does at EOF. -/
def scanLinesAux : Bytes → Bytes → List Bytes
  | [], acc => if acc.isEmpty then [] else [dropCR acc.reverse]
  | b :: rest, acc =>
      if b = 10 then dropCR acc.reverse :: scanLinesAux rest []
      else scanLinesAux rest (b :: acc)

/-- The token sequence `bufio.Scanner` with the default `ScanLines` split
function produces from the full byte stream of a pipe: split at newlines,
strip the newline and one trailing carriage return, and emit a final
unterminated non-empty segment at EOF. -/
def scanLines (bs : Bytes) : List Bytes := scanLinesAux bs []

/-- A line that contains no newline and does not end in a carriage return;
the line protocol sends each such line followed by one newline byte. -/
def CleanLine (l : Bytes) : Prop := 10 ∉ l ∧ l.getLast? ≠ some 13

instance (l : Bytes) : Decidable (CleanLine l) := by
  unfold CleanLine
  infer_instance

/-- The pipe byte stream of a child that writes each given line terminated
by a newline. -/
def encodeLines (lines : List Bytes) : Bytes :=
  lines.flatMap (fun l => l ++ [10])

/-- The `syscall.SysProcAttr` fields the supervisor sets. -/
structure SysProcAttr where
  setpgid : Bool
  pgid : Int
  deriving DecidableEq, Repr

/-- Every variant assigns `&syscall.SysProcAttr{Setpgid: true}` to the
command before starting it; the `Pgid` field is left at its zero value. -/
def commandSysProcAttr : SysProcAttr := { setpgid := true, pgid := 0 }

/-- Documented semantics of `Setpgid`/`Pgid` at fork time: with `Setpgid`
set, the child joins the process group `Pgid`, or a fresh group whose id is
the child's own pid when `Pgid` is zero; with `Setpgid` unset it stays in
the parent's group (`none` here). -/
def SysProcAttr.effectivePgid (attr : SysProcAttr) (childPid : Int) : Option Int :=
  if attr.setpgid then some (if attr.pgid = 0 then childPid else attr.pgid) else none

/-- An operating-system error returned by a pipe-creation or start call. -/
inductive SysErr where
  | errno (n : Nat)
  deriving DecidableEq, Repr

/-- The errors a spawn entry point can return: the distinguished
`errors.New` value for an empty argument list, or an underlying system
error propagated from pipe creation or process start. -/
inductive GoError where
  | noArguments
  | sys (e : SysErr)
  deriving DecidableEq, Repr

/-- The outcomes the environment chooses for the fallible system calls a
spawn performs: the three pipe creations and the process start. -/
structure SpawnEnv where
  stdinPipeErr : Option SysErr
  stdoutPipeErr : Option SysErr
  stderrPipeErr : Option SysErr
  startErr : Option SysErr
  deriving DecidableEq, Repr

/-- What a call of a spawn entry point did: the error it returned (if any),
whether it created and returned the output channel(s) (false means the
channel results are nil), and which component tasks it started, in order. -/
structure SpawnOutcome where
  result : Option GoError
  channelsReturned : Bool
  tasksStarted : List TaskId
  deriving DecidableEq, Repr

/-- `getReaders` of the coordinator variants: creates the stdin, stdout and
stderr pipes in that order and propagates the first failure. -/
def getReaders (env : SpawnEnv) : Option SysErr :=
  match env.stdinPipeErr with
  | some e => some e
  | none =>
      match env.stdoutPipeErr with
      | some e => some e
      | none => env.stderrPipeErr

/-- The first failure among the fallible calls in the order the current
`NewProcess` performs them: the three pipe creations, then `Start`. -/
def firstSpawnErr (env : SpawnEnv) : Option SysErr :=
  match getReaders env with
  | some e => some e
  | none => env.startErr

/-- An environment in which every pipe creation succeeds but starting the
child process fails. -/
def envStartFail : SpawnEnv :=
  { stdinPipeErr := none, stdoutPipeErr := none, stderrPipeErr := none,
    startErr := some (SysErr.errno 13) }

/-- `forwardSignals` (identical in `V1` and `V2`): ranges over the signal
channel, forwarding each received value to the child's process group via
`syscall.Kill(-pid, s.(syscall.Signal))`. The unchecked type assertion
panics on a value whose dynamic type is not `syscall.Signal`. When the
channel is closed the loop ends and the task returns with no further
action. The result pairs the actions performed with the panic, if one was
raised (acting cuts the run short). -/
def forwardSignalsRun (pid : Int) : List OsSignal → List Action × Option GoPanic
  | [] => ([], none)
  | OsSignal.syscallSig sn :: rest =>
      let r := forwardSignalsRun pid rest
      (Action.kill (-pid) sn :: r.1, r.2)
  | OsSignal.nonSyscall n :: _ => ([], some (GoPanic.typeAssertion n))

namespace Interfaces

/-- `sendStdin` of `src/process.go`: ranges over the input channel, writing
each message with a newline appended; a write error is logged and the loop
continues with the next message; on channel closure it raises its
completion signal (it does not close the stdin pipe). `writeOk` is the
environment's verdict for each attempted pipe write. -/
def sendStdin (writeOk : Bytes → Bool) : List Bytes → List Action
  | [] => [Action.doneSignal TaskId.stdinTask]
  | msg :: rest =>
      (if writeOk (msg ++ [10]) then [Action.write (msg ++ [10]) true]
       else [Action.write (msg ++ [10]) false, Action.logWriteError])
      ++ sendStdin writeOk rest

/-- `recvStdout` of `src/process.go` (merged mode): scans the stdout pipe
line by line, parses each line with `NewMessageFromData` (the external
codec, abstracted as `parse`), logs and drops lines that fail to parse,
emits parsed messages in order, and on EOF closes the output channel and
raises its completion signal. -/
def recvStdout (parse : Bytes → Option Bytes) (pipe : Bytes) : List Action :=
  ((scanLines pipe).flatMap fun l =>
    match parse l with
    | some m => [Action.emit StreamId.stdout m]
    | none => [Action.logParseError])
  ++ [Action.closeChan StreamId.stdout, Action.doneSignal TaskId.stdoutTask]

/-- `pipeStderr` of `src/process.go`: scans the stderr pipe and writes each
line to the diagnostic sink; it has no done channel. -/
def pipeStderr (pipe : Bytes) : List Action :=
  (scanLines pipe).map Action.diag

/-- `runProcess` of `src/process.go`: runs the child inside its own task,
discards the error of `command.Run()` (so a start failure surfaces nowhere)
and raises its completion signal. -/
def runProcess (_startErr : Option SysErr) : List Action :=
  [Action.doneSignal TaskId.processTask]

/-- The completion signals the `StartProcess` coordinator selects over. -/
inductive DoneEvent where
  | stdin
  | stdout
  | process
  deriving DecidableEq, Repr

/-- The body of the coordinator's select in `StartProcess`: on the
stream-writer signal it kills the child's process group with SIGINT; on the
other signals it does nothing. -/
def coordinate (pid : Int) : DoneEvent → List Action
  | DoneEvent.stdin => [Action.kill (-pid) SigNum.sigint]
  | DoneEvent.stdout => []
  | DoneEvent.process => []

/-- The coordinator task runs the select once and returns: it reacts to the
first completion signal observed (the head of the observation order) and
never looks at later ones. -/
def coordinatorRun (pid : Int) : List DoneEvent → List Action
  | [] => []
  | e :: _ => coordinate pid e

/-- `StartProcess` of `src/process.go`: rejects an empty argument list,
creates the three pipes via `getReaders` (propagating the first failure
with nil channel results and no task started), then starts the stdin
writer, the stdout reader, the stderr pipe task, the process runner and the
coordinator, and returns the message channel. The child is started by
`command.Run()` inside the process-runner task, so a start failure is not
checked here. -/
def StartProcess (args : List String) (env : SpawnEnv) : SpawnOutcome :=
  if args.length = 0 then
    { result := some GoError.noArguments, channelsReturned := false, tasksStarted := [] }
  else
    match getReaders env with
    | some e =>
        { result := some (GoError.sys e), channelsReturned := false, tasksStarted := [] }
    | none =>
        { result := none
          channelsReturned := true
          tasksStarted :=
            [TaskId.stdinTask, TaskId.stdoutTask, TaskId.stderrTask,
             TaskId.processTask, TaskId.coordTask] }

end Interfaces

namespace V1

/-- `sendStdin` of the coordinator variant of `NewProcess`: as in
`Interfaces.sendStdin` but the log call is commented out, so a failed write
is silently skipped; on channel closure it raises its completion signal and
does not close the stdin pipe. -/
def sendStdin (writeOk : Bytes → Bool) : List Bytes → List Action
  | [] => [Action.doneSignal TaskId.stdinTask]
  | msg :: rest =>
      Action.write (msg ++ [10]) (writeOk (msg ++ [10])) :: sendStdin writeOk rest

/-- `recvStdout` of the coordinator variant: emits one raw message per
scanned line in order, then closes the stdout channel and raises its
completion signal. -/
def recvStdout (pipe : Bytes) : List Action :=
  (scanLines pipe).map (Action.emit StreamId.stdout)
  ++ [Action.closeChan StreamId.stdout, Action.doneSignal TaskId.stdoutTask]

/-- `recvStderr` of the coordinator variant, mirroring `recvStdout`. -/
def recvStderr (pipe : Bytes) : List Action :=
  (scanLines pipe).map (Action.emit StreamId.stderr)
  ++ [Action.closeChan StreamId.stderr, Action.doneSignal TaskId.stderrTask]

/-- The completion signals the coordinator variant's select observes. -/
inductive DoneEvent where
  | stdin
  | stdout
  | stderr
  | process
  deriving DecidableEq, Repr

/-- The select body of the coordinator variant: SIGINT to the process group
on the stream-writer signal, nothing otherwise. -/
def coordinate (pid : Int) : DoneEvent → List Action
  | DoneEvent.stdin => [Action.kill (-pid) SigNum.sigint]
  | DoneEvent.stdout => []
  | DoneEvent.stderr => []
  | DoneEvent.process => []

/-- The coordinator task of the coordinator variant: one select, reacting
only to the first completion signal observed. -/
def coordinatorRun (pid : Int) : List DoneEvent → List Action
  | [] => []
  | e :: _ => coordinate pid e

/-- `NewProcess` of the coordinator variant: empty-argument check, pipes
via `getReaders` (first failure returned with nil channels, no tasks), then
the writer, both readers, the process runner, the signal relay and the
coordinator are started and both output channels returned. The child is
started by `command.Run()` inside the process runner. -/
def NewProcess (args : List String) (env : SpawnEnv) : SpawnOutcome :=
  if args.length = 0 then
    { result := some GoError.noArguments, channelsReturned := false, tasksStarted := [] }
  else
    match getReaders env with
    | some e =>
        { result := some (GoError.sys e), channelsReturned := false, tasksStarted := [] }
    | none =>
        { result := none
          channelsReturned := true
          tasksStarted :=
            [TaskId.stdinTask, TaskId.stdoutTask, TaskId.stderrTask,
             TaskId.processTask, TaskId.signalTask, TaskId.coordTask] }

end V1

namespace V2

/-- `sendStdin` of `src/unnamed/part_000`: ranges over the input channel,
writing each message with a newline appended, silently skipping failed
writes; when the channel is closed it closes the child's stdin pipe. It has
no done channel, so it raises no completion signal. -/
def sendStdin (writeOk : Bytes → Bool) : List Bytes → List Action
  | [] => [Action.closeStdinPipe]
  | msg :: rest =>
      Action.write (msg ++ [10]) (writeOk (msg ++ [10])) :: sendStdin writeOk rest

/-- `recvStdout` of `src/unnamed/part_000`: emits one raw message per
scanned line in order and closes the stdout channel on EOF; it has no done
channel, so it raises no completion signal. -/
def recvStdout (pipe : Bytes) : List Action :=
  (scanLines pipe).map (Action.emit StreamId.stdout)
  ++ [Action.closeChan StreamId.stdout]

/-- `recvStderr` of `src/unnamed/part_000`, mirroring `recvStdout`. -/
def recvStderr (pipe : Bytes) : List Action :=
  (scanLines pipe).map (Action.emit StreamId.stderr)
  ++ [Action.closeChan StreamId.stderr]

/-- `NewProcess` of `src/unnamed/part_000`: empty-argument check; the three
pipes are created in order and the first failure is returned with nil
channels before any task starts; `command.Start()` is called synchronously
and its failure is likewise returned before any task starts; on success the
writer, both readers, the signal relay and the waiter task are started and
both output channels returned. -/
def NewProcess (args : List String) (env : SpawnEnv) : SpawnOutcome :=
  if args.length = 0 then
    { result := some GoError.noArguments, channelsReturned := false, tasksStarted := [] }
  else
    match env.stdinPipeErr with
    | some e =>
        { result := some (GoError.sys e), channelsReturned := false, tasksStarted := [] }
    | none =>
        match env.stdoutPipeErr with
        | some e =>
            { result := some (GoError.sys e), channelsReturned := false, tasksStarted := [] }
        | none =>
            match env.stderrPipeErr with
            | some e =>
                { result := some (GoError.sys e), channelsReturned := false, tasksStarted := [] }
            | none =>
                match env.startErr with
                | some e =>
                    { result := some (GoError.sys e), channelsReturned := false,
                      tasksStarted := [] }
                | none =>
                    { result := none
                      channelsReturned := true
                      tasksStarted :=
                        [TaskId.stdinTask, TaskId.stdoutTask, TaskId.stderrTask,
                         TaskId.signalTask, TaskId.processTask] }

end V2

/-!
Store-level model of `bufio.Scanner` for the aliasing behaviour of
`Scanner.Bytes`. The split-mode readers send `stdoutScanner.Bytes()` on the
output channel; per its documentation that slice points into the scanner's
internal buffer and "may be overwritten by a subsequent call to Scan". The
model makes the backing buffer explicit: a token is a view (offset and
length) into the buffer, and `Scan` shifts buffered data to the front of
the buffer before refilling exactly under the condition the library uses
(`start > 0 && (end == len(buf) || start > len(buf)/2)`). The buffer has a
fixed capacity here and runs are chosen so that no buffer growth is needed.
-/

/-- A Go slice view into the scanner's backing buffer. -/
structure Slice where
  off : Nat
  len : Nat
  deriving DecidableEq, Repr

/-- The bytes a slice view observes in a given backing buffer. -/
def derefSlice (buf : List Nat) (sl : Slice) : List Nat :=
  (List.range sl.len).map (fun i => buf.getD (sl.off + i) 0)

/-- `copy(buf, buf[start:end])`: move the live window to the front of the
backing buffer, overwriting its former head (memmove semantics: reads come
from the original contents). -/
def bufShift (buf : List Nat) (start endPos : Nat) : List Nat :=
  (List.range (endPos - start)).foldl (fun b i => b.set i (buf.getD (start + i) 0)) buf

/-- Write a chunk of freshly read pipe data into the backing buffer at the
given position. -/
def bufWrite (buf : List Nat) (pos : Nat) (data : List Nat) : List Nat :=
  (List.range data.length).foldl (fun b i => b.set (pos + i) (data.getD i 0)) buf

/-- Scanner state: backing buffer, live window `[start, endPos)`, and the
chunks the pipe will still deliver (empty means EOF on the next read). -/
structure ScanState where
  buf : List Nat
  start : Nat
  endPos : Nat
  input : List (List Nat)
  deriving DecidableEq, Repr

/-- Index of the first newline in the live window, if any. -/
def findNewline (buf : List Nat) (start endPos : Nat) : Option Nat :=
  ((List.range (endPos - start)).map (fun k => start + k)).find?
    (fun i => buf.getD i 0 == 10)

/-- Token length after `dropCR`: one shorter when the token's last byte in
the buffer is a carriage return. -/
def dropCRLen (buf : List Nat) (off len : Nat) : Nat :=
  if 0 < len ∧ buf.getD (off + len - 1) 0 = 13 then len - 1 else len

/-- One read from the pipe: shift the live window to the front when the
library's shift condition holds, then append the chunk to the window. -/
def refill (st : ScanState) (c : List Nat) (rest : List (List Nat)) : ScanState :=
  let st1 :=
    if st.start > 0 ∧ (st.endPos = st.buf.length ∨ st.start > st.buf.length / 2) then
      { st with
        buf := bufShift st.buf st.start st.endPos
        endPos := st.endPos - st.start
        start := 0 }
    else st
  { st1 with
    buf := bufWrite st1.buf st1.endPos c
    endPos := st1.endPos + c.length
    input := rest }

/-- One `Scan` call with `ScanLines`, fuel-bounded by the number of reads
still possible: return a newline-terminated token from the window if there
is one (advancing past it), otherwise read more data and retry, and at EOF
return the final non-empty segment, or `none` when the input is exhausted.
The returned token is a view into the buffer of the returned state. -/
def scanFuel : Nat → ScanState → Option (Slice × ScanState)
  | fuel, st =>
    match findNewline st.buf st.start st.endPos with
    | some i =>
        some ({ off := st.start, len := dropCRLen st.buf st.start (i - st.start) },
              { st with start := i + 1 })
    | none =>
        match st.input with
        | [] =>
            if st.start < st.endPos then
              some ({ off := st.start, len := dropCRLen st.buf st.start (st.endPos - st.start) },
                    { st with start := st.endPos })
            else none
        | c :: rest =>
            match fuel with
            | 0 => none
            | f + 1 => scanFuel f (refill st c rest)

/-- One `Scan` call: the fuel `input.length` covers every read the call
could perform. -/
def scan (st : ScanState) : Option (Slice × ScanState) :=
  scanFuel st.input.length st

/-- The reader loop of the split-mode `recvStdout` at store level: scan
repeatedly, sending each `Scanner.Bytes` view on the channel, paired with
the scanner state right after that scan. -/
def scanAll : Nat → ScanState → List (Slice × ScanState)
  | 0, _ => []
  | f + 1, st =>
      match scan st with
      | none => []
      | some (t, st') => (t, st') :: scanAll f st'

/-- The slice views the split-mode reader sends on its output channel for a
whole run. -/
def recvStdoutViews (st : ScanState) : List Slice :=
  (scanAll (st.input.flatten.length + 1) st).map (fun p => p.1)

/-- The failing scenario for message immutability: a scanner with a backing
buffer of capacity 6 whose pipe delivers the lines `aaa` and `bbb`, each
newline-terminated, in two reads. -/
def aliasBuf0 : ScanState :=
  { buf := List.replicate 6 0, start := 0, endPos := 0,
    input := [[97, 97, 97, 10], [98, 98, 98, 10]] }

/-- State and token of the first scan of the failing scenario. -/
def aliasStep1 : Slice × ScanState :=
  (scan aliasBuf0).getD ({ off := 0, len := 0 }, aliasBuf0)

/-- State and token of the second scan of the failing scenario. -/
def aliasStep2 : Slice × ScanState :=
  (scan aliasStep1.2).getD ({ off := 0, len := 0 }, aliasStep1.2)

/-! Helper lemmas. -/

theorem dropCR_clean (l : Bytes) (h : l.getLast? ≠ some 13) : dropCR l = l := by
  simp [dropCR, h]

theorem scanLinesAux_line (l : Bytes) (h : (10 : Nat) ∉ l) :
    ∀ acc rest : Bytes,
      scanLinesAux (l ++ 10 :: rest) acc = dropCR (acc.reverse ++ l) :: scanLinesAux rest [] := by
  induction l with
  | nil =>
      intro acc rest
      simp [scanLinesAux]
  | cons b bs ih =>
      intro acc rest
      have hb : b ≠ 10 := by
        intro hb
        exact h (hb ▸ List.mem_cons_self b bs)
      have hbs : (10 : Nat) ∉ bs := fun hm => h (List.mem_cons_of_mem _ hm)
      simp only [List.cons_append, scanLinesAux, if_neg hb, List.append_eq]
      rw [ih hbs (b :: acc) rest]
      simp

theorem scanLines_encode (lines : List Bytes) (h : ∀ l ∈ lines, CleanLine l) :
    scanLines (encodeLines lines) = lines := by
  induction lines with
  | nil => simp [scanLines, encodeLines, scanLinesAux]
  | cons l ls ih =>
      have hl := h l (List.mem_cons_self l ls)
      have hls : ∀ x ∈ ls, CleanLine x := fun x hx => h x (List.mem_cons_of_mem _ hx)
      have henc : encodeLines (l :: ls) = l ++ 10 :: encodeLines ls := by
        simp [encodeLines]
      have h2 := ih hls
      rw [scanLines] at h2
      rw [scanLines, henc, scanLinesAux_line l hl.1 [] (encodeLines ls)]
      simp [dropCR_clean l hl.2, h2]

theorem sendStdinV2_eq (writeOk : Bytes → Bool) (msgs : List Bytes) :
    V2.sendStdin writeOk msgs
      = msgs.map (fun m => Action.write (m ++ [10]) (writeOk (m ++ [10])))
        ++ [Action.closeStdinPipe] := by
  induction msgs with
  | nil => rfl
  | cons m rest ih => simp [V2.sendStdin, ih]

theorem sendStdinV1_eq (writeOk : Bytes → Bool) (msgs : List Bytes) :
    V1.sendStdin writeOk msgs
      = msgs.map (fun m => Action.write (m ++ [10]) (writeOk (m ++ [10])))
        ++ [Action.doneSignal TaskId.stdinTask] := by
  induction msgs with
  | nil => rfl
  | cons m rest ih => simp [V1.sendStdin, ih]

theorem sendStdinI_eq (writeOk : Bytes → Bool) (msgs : List Bytes) :
    Interfaces.sendStdin writeOk msgs
      = (msgs.flatMap fun m =>
          if writeOk (m ++ [10]) then [Action.write (m ++ [10]) true]
          else [Action.write (m ++ [10]) false, Action.logWriteError])
        ++ [Action.doneSignal TaskId.stdinTask] := by
  induction msgs with
  | nil => rfl
  | cons m rest ih =>
      by_cases hw : writeOk (m ++ [10]) <;>
        simp [Interfaces.sendStdin, hw, ih]

theorem forwardSignalsRun_syscall (pid : Int) (ss : List SigNum) :
    forwardSignalsRun pid (ss.map OsSignal.syscallSig)
      = (ss.map (Action.kill (-pid)), none) := by
  induction ss with
  | nil => rfl
  | cons s rest ih => simp [forwardSignalsRun, ih]

theorem count_nonwrite_in_writes (g : Bytes → Bool) (msgs : List Bytes) (a : Action)
    (ha : a.isWrite = false) :
    (msgs.map (fun m => Action.write (m ++ [10]) (g (m ++ [10])))).count a = 0 := by
  rw [List.count_eq_zero]
  intro hm
  rcases List.mem_map.mp hm with ⟨m, _, he⟩
  rw [← he] at ha
  simp [Action.isWrite] at ha

theorem count_in_emits (s : StreamId) (ls : List Bytes) (a : Action)
    (ha : ∀ d, a ≠ Action.emit s d) :
    (ls.map (Action.emit s)).count a = 0 := by
  rw [List.count_eq_zero]
  intro hm
  rcases List.mem_map.mp hm with ⟨d, _, he⟩
  exact ha d he.symm

/-! Claim theorems. -/

/-- Claim C1: the Termination Coordinator reacts to exactly the first
completion signal it observes — SIGINT to the child's process group when
that signal is the stream writer's, nothing for any other first signal —
and the reaction fires at most once per supervised process: whatever the
observation order, the coordinator performs at most one action, determined
by the head alone. Both coordinator variants (the three-way select of
`StartProcess` and the four-way select of the coordinator `NewProcess`)
are covered. -/
theorem coordinator_first_event_wins (pid : Int)
    (e : Interfaces.DoneEvent) (rest : List Interfaces.DoneEvent)
    (e2 : V1.DoneEvent) (rest2 : List V1.DoneEvent) :
    Interfaces.coordinatorRun pid (e :: rest)
      = (if e = Interfaces.DoneEvent.stdin then [Action.kill (-pid) SigNum.sigint] else [])
    ∧ V1.coordinatorRun pid (e2 :: rest2)
      = (if e2 = V1.DoneEvent.stdin then [Action.kill (-pid) SigNum.sigint] else [])
    ∧ (∀ evs : List Interfaces.DoneEvent, (Interfaces.coordinatorRun pid evs).length ≤ 1)
    ∧ (∀ evs : List V1.DoneEvent, (V1.coordinatorRun pid evs).length ≤ 1) := by
  refine ⟨?_, ?_, ?_, ?_⟩
  · cases e <;> simp [Interfaces.coordinatorRun, Interfaces.coordinate]
  · cases e2 <;> simp [V1.coordinatorRun, V1.coordinate]
  · intro evs
    cases evs with
    | nil => simp [Interfaces.coordinatorRun]
    | cons e3 r3 => cases e3 <;> simp [Interfaces.coordinatorRun, Interfaces.coordinate]
  · intro evs
    cases evs with
    | nil => simp [V1.coordinatorRun]
    | cons e3 r3 => cases e3 <;> simp [V1.coordinatorRun, V1.coordinate]

/-- Claim C2 (counterexample): no Stream Writer variant both closes the
child's stdin pipe and raises a completion signal. On the concrete run
that sends one message and closes the input channel, the current
`NewProcess` writer raises zero completion signals, and the coordinator
variants' writers never close the stdin pipe. -/
theorem streamWriter_claim_false :
    (V2.sendStdin (fun _ => true) [[104, 105]]).count (Action.doneSignal TaskId.stdinTask) = 0
    ∧ (Interfaces.sendStdin (fun _ => true) [[104, 105]]).count Action.closeStdinPipe = 0
    ∧ (V1.sendStdin (fun _ => true) [[104, 105]]).count Action.closeStdinPipe = 0 := by
  decide

/-- Claim C2 (amended): after draining all remaining messages the Stream
Writer performs exactly one terminal action. In the current `NewProcess`
variant it closes the child's stdin pipe exactly once and raises no
completion signal; in the coordinator variants it raises its completion
signal exactly once and never closes the stdin pipe. -/
theorem streamWriter_drain_then_terminal (writeOk : Bytes → Bool) (msgs : List Bytes) :
    V2.sendStdin writeOk msgs
      = msgs.map (fun m => Action.write (m ++ [10]) (writeOk (m ++ [10])))
        ++ [Action.closeStdinPipe]
    ∧ (V2.sendStdin writeOk msgs).count Action.closeStdinPipe = 1
    ∧ (V2.sendStdin writeOk msgs).count (Action.doneSignal TaskId.stdinTask) = 0
    ∧ V1.sendStdin writeOk msgs
      = msgs.map (fun m => Action.write (m ++ [10]) (writeOk (m ++ [10])))
        ++ [Action.doneSignal TaskId.stdinTask]
    ∧ (V1.sendStdin writeOk msgs).count (Action.doneSignal TaskId.stdinTask) = 1
    ∧ (V1.sendStdin writeOk msgs).count Action.closeStdinPipe = 0
    ∧ (Interfaces.sendStdin writeOk msgs).count (Action.doneSignal TaskId.stdinTask) = 1
    ∧ (Interfaces.sendStdin writeOk msgs).count Action.closeStdinPipe = 0 := by
  have hwz : ∀ a : Action, a.isWrite = false →
      (msgs.map (fun m => Action.write (m ++ [10]) (writeOk (m ++ [10])))).count a = 0 :=
    fun a ha => count_nonwrite_in_writes writeOk msgs a ha
  have hflat : ∀ a : Action, a.isWrite = false → a ≠ Action.logWriteError →
      (msgs.flatMap fun m =>
        if writeOk (m ++ [10]) then [Action.write (m ++ [10]) true]
        else [Action.write (m ++ [10]) false, Action.logWriteError]).count a = 0 := by
    intro a ha hl
    rw [List.count_eq_zero]
    intro hm
    rcases List.mem_flatMap.mp hm with ⟨m, _, hin⟩
    by_cases hw : writeOk (m ++ [10]) <;> simp [hw] at hin
    · rw [hin] at ha
      simp [Action.isWrite] at ha
    · rcases hin with hin | hin
      · rw [hin] at ha
        simp [Action.isWrite] at ha
      · exact hl hin
  refine ⟨sendStdinV2_eq writeOk msgs, ?_, ?_, sendStdinV1_eq writeOk msgs, ?_, ?_, ?_, ?_⟩
  · rw [sendStdinV2_eq, List.count_append, hwz Action.closeStdinPipe rfl]
    rfl
  · rw [sendStdinV2_eq, List.count_append, hwz (Action.doneSignal TaskId.stdinTask) rfl]
    rfl
  · rw [sendStdinV1_eq, List.count_append, hwz (Action.doneSignal TaskId.stdinTask) rfl]
    rfl
  · rw [sendStdinV1_eq, List.count_append, hwz Action.closeStdinPipe rfl]
    rfl
  · rw [sendStdinI_eq, List.count_append,
      hflat (Action.doneSignal TaskId.stdinTask) rfl (by simp)]
    rfl
  · rw [sendStdinI_eq, List.count_append, hflat Action.closeStdinPipe rfl (by simp)]
    rfl

/-- Claim C3: closing the signal channel is inert. A Signal Relay run that
receives the signals `ss` and then sees its channel closed performs exactly
one group-directed kill per received signal and nothing else: every action
of the run is a kill, the run has exactly as many actions as received
signals (so the closure itself contributes none), no panic is raised, and
the run that observes closure immediately performs no action at all. In
particular the relay never closes a pipe or channel and never raises a
completion signal. -/
theorem signalRelay_close_inert (pid : Int) (ss : List SigNum) :
    forwardSignalsRun pid (ss.map OsSignal.syscallSig) = (ss.map (Action.kill (-pid)), none)
    ∧ (forwardSignalsRun pid (ss.map OsSignal.syscallSig)).1.all Action.isKill = true
    ∧ (forwardSignalsRun pid (ss.map OsSignal.syscallSig)).1.length = ss.length
    ∧ forwardSignalsRun pid [] = ([], none) := by
  refine ⟨forwardSignalsRun_syscall pid ss, ?_, ?_, rfl⟩
  · rw [forwardSignalsRun_syscall]
    rw [List.all_eq_true]
    intro a hm
    rcases List.mem_map.mp hm with ⟨s, _, he⟩
    rw [← he]
    rfl
  · rw [forwardSignalsRun_syscall]
    simp

/-- Claim C10: the Signal Relay's forwarding step is total exactly on
`syscall.Signal` values. A run is panic-free if and only if every received
value has dynamic type `syscall.Signal`, and a run that receives any other
value panics at that value through the unchecked type assertion, forwarding
nothing from that point on. -/
theorem signalRelay_requires_syscall_signal (pid : Int) (sigs : List OsSignal)
    (n : String) (rest : List OsSignal) :
    ((forwardSignalsRun pid sigs).2.isNone = sigs.all OsSignal.isSyscallSig)
    ∧ forwardSignalsRun pid (OsSignal.nonSyscall n :: rest)
        = ([], some (GoPanic.typeAssertion n)) := by
  constructor
  · induction sigs with
    | nil => rfl
    | cons s r ih =>
        cases s with
        | syscallSig sn => simp [forwardSignalsRun, OsSignal.isSyscallSig, ih]
        | nonSyscall m => simp [forwardSignalsRun, OsSignal.isSyscallSig]
  · rfl

/-- Claim C4 (counterexample): a process-start failure is not always
surfaced synchronously. In the coordinator variants the child is started by
`command.Run()` inside the process-runner task, so with every pipe creation
succeeding and the start failing, `StartProcess` and the coordinator
`NewProcess` return a nil error with channels created and tasks already
started. -/
theorem spawn_start_failure_not_synchronous :
    (Interfaces.StartProcess ["cat"] envStartFail).result = none
    ∧ (Interfaces.StartProcess ["cat"] envStartFail).tasksStarted ≠ []
    ∧ (Interfaces.StartProcess ["cat"] envStartFail).channelsReturned = true
    ∧ (V1.NewProcess ["cat"] envStartFail).result = none
    ∧ (V1.NewProcess ["cat"] envStartFail).tasksStarted ≠ [] := by
  decide

/-- Claim C4 (amended): every pipe-creation failure is returned
synchronously by all variants, before any component task is started and
with nil channel results, propagating the underlying error; a
process-start failure is returned the same way by the current `NewProcess`
(which calls `Start` synchronously), while in the coordinator variants the
child is started inside the process-runner task and a start failure there
is never returned to the caller — given working pipes those variants
succeed unconditionally with all tasks started. -/
theorem spawn_failures_synchronous (args : List String) (env : SpawnEnv)
    (hargs : args ≠ []) :
    (∀ e, firstSpawnErr env = some e →
      V2.NewProcess args env
        = { result := some (GoError.sys e), channelsReturned := false, tasksStarted := [] })
    ∧ (∀ e, getReaders env = some e →
      Interfaces.StartProcess args env
        = { result := some (GoError.sys e), channelsReturned := false, tasksStarted := [] }
      ∧ V1.NewProcess args env
        = { result := some (GoError.sys e), channelsReturned := false, tasksStarted := [] })
    ∧ (getReaders env = none →
      Interfaces.StartProcess args env
        = { result := none, channelsReturned := true
            tasksStarted := [TaskId.stdinTask, TaskId.stdoutTask, TaskId.stderrTask,
                             TaskId.processTask, TaskId.coordTask] }
      ∧ V1.NewProcess args env
        = { result := none, channelsReturned := true
            tasksStarted := [TaskId.stdinTask, TaskId.stdoutTask, TaskId.stderrTask,
                             TaskId.processTask, TaskId.signalTask, TaskId.coordTask] }) := by
  have hlen : ¬ args.length = 0 := fun h => hargs (List.length_eq_zero.mp h)
  rcases env with ⟨si, so, se, st⟩
  refine ⟨?_, ?_, ?_⟩
  · intro e he
    cases si <;> cases so <;> cases se <;> cases st <;>
      simp_all [firstSpawnErr, getReaders, V2.NewProcess]
  · intro e he
    cases si <;> cases so <;> cases se <;>
      simp_all [getReaders, Interfaces.StartProcess, V1.NewProcess]
  · intro he
    cases si <;> cases so <;> cases se <;>
      simp_all [getReaders, Interfaces.StartProcess, V1.NewProcess]

/-- Witness for the amended C4 at a concrete input: one non-empty argument
list and an environment whose stdin pipe creation fails. -/
theorem spawn_failures_synchronous_witness :
    (["x"] : List String) ≠ []
    ∧ V2.NewProcess ["x"] ⟨some (SysErr.errno 2), none, none, none⟩
        = { result := some (GoError.sys (SysErr.errno 2)), channelsReturned := false,
            tasksStarted := [] } :=
  ⟨List.cons_ne_nil "x" [],
   (spawn_failures_synchronous ["x"] ⟨some (SysErr.errno 2), none, none, none⟩
      (List.cons_ne_nil "x" [])).1 (SysErr.errno 2) rfl⟩

/-- Claim C5 (counterexample): on the pipe stream `a` newline, the current
`NewProcess` stdout reader closes its channel but raises zero completion
signals (it has no done slot), and on the stream `a` newline `b` — whose
only newline-terminated line is `a` — it emits two messages, the final
unterminated segment included. -/
theorem lineReader_claim_false :
    (V2.recvStdout [97, 10]).count (Action.doneSignal TaskId.stdoutTask) = 0
    ∧ V2.recvStdout [97, 10, 98]
      = [Action.emit StreamId.stdout [97], Action.emit StreamId.stdout [98],
         Action.closeChan StreamId.stdout] := by
  decide

/-- Claim C5 (amended): the split-mode Line Reader emits exactly one
message per scanned line of the pipe — one per newline-terminated line,
plus one for a final non-empty unterminated segment — in source order with
the newline stripped, and then closes its output channel exactly once,
after all emissions. The coordinator variant's reader then raises its
completion signal exactly once; the current `NewProcess` reader has no done
slot and raises none. -/
theorem lineReader_per_line_emission (lines : List Bytes) (pipe : Bytes)
    (h : ∀ l ∈ lines, CleanLine l) :
    V2.recvStdout (encodeLines lines)
      = lines.map (Action.emit StreamId.stdout) ++ [Action.closeChan StreamId.stdout]
    ∧ V1.recvStdout (encodeLines lines)
      = lines.map (Action.emit StreamId.stdout)
        ++ [Action.closeChan StreamId.stdout, Action.doneSignal TaskId.stdoutTask]
    ∧ (V2.recvStdout pipe).count (Action.closeChan StreamId.stdout) = 1
    ∧ (V2.recvStdout pipe).count (Action.doneSignal TaskId.stdoutTask) = 0
    ∧ (V1.recvStdout pipe).count (Action.closeChan StreamId.stdout) = 1
    ∧ (V1.recvStdout pipe).count (Action.doneSignal TaskId.stdoutTask) = 1 := by
  have hz : ∀ a : Action, (∀ d, a ≠ Action.emit StreamId.stdout d) →
      ((scanLines pipe).map (Action.emit StreamId.stdout)).count a = 0 :=
    fun a ha => count_in_emits StreamId.stdout (scanLines pipe) a ha
  refine ⟨?_, ?_, ?_, ?_, ?_, ?_⟩
  · rw [V2.recvStdout, scanLines_encode lines h]
  · rw [V1.recvStdout, scanLines_encode lines h]
  · rw [V2.recvStdout, List.count_append, hz (Action.closeChan StreamId.stdout) (by simp)]
    rfl
  · rw [V2.recvStdout, List.count_append, hz (Action.doneSignal TaskId.stdoutTask) (by simp)]
    rfl
  · rw [V1.recvStdout, List.count_append, hz (Action.closeChan StreamId.stdout) (by simp)]
    rfl
  · rw [V1.recvStdout, List.count_append, hz (Action.doneSignal TaskId.stdoutTask) (by simp)]
    rfl

/-- Witness for the amended C5 at a concrete input: the clean lines `a`
and `bc`. -/
theorem lineReader_per_line_emission_witness :
    (∀ l ∈ ([[97], [98, 99]] : List Bytes), CleanLine l)
    ∧ V2.recvStdout (encodeLines [[97], [98, 99]])
        = [Action.emit StreamId.stdout [97], Action.emit StreamId.stdout [98, 99],
           Action.closeChan StreamId.stdout] :=
  ⟨by decide,
   (lineReader_per_line_emission [[97], [98, 99]] [] (by decide)).1⟩

/-- Claim C6: every signal sent to the child—both relayed caller signals
and the coordinators' SIGINT—is passed to `syscall.Kill` with the negated
child pid, i.e. process-group addressing, never the raw pid; and the
`SysProcAttr` every variant assigns puts the child, at spawn, in a fresh
process group whose id is the child's own pid. -/
theorem signals_target_process_group (pid : Int) (hpid : 0 < pid)
    (ss : List SigNum) (e : Interfaces.DoneEvent) (rest : List Interfaces.DoneEvent)
    (e2 : V1.DoneEvent) (rest2 : List V1.DoneEvent) :
    commandSysProcAttr.effectivePgid pid = some pid
    ∧ GroupAddressed pid (forwardSignalsRun pid (ss.map OsSignal.syscallSig)).1
    ∧ GroupAddressed pid (Interfaces.coordinatorRun pid (e :: rest))
    ∧ GroupAddressed pid (V1.coordinatorRun pid (e2 :: rest2)) := by
  have hneg : -pid < 0 := by omega
  refine ⟨by simp [commandSysProcAttr, SysProcAttr.effectivePgid], ?_, ?_, ?_⟩
  · rw [forwardSignalsRun_syscall]
    intro p hp
    rcases List.mem_filterMap.mp hp with ⟨a, ha, hk⟩
    rcases List.mem_map.mp ha with ⟨s, _, he⟩
    rw [← he] at hk
    simp [Action.killArg] at hk
    exact ⟨hk.symm, by omega⟩
  · intro p hp
    cases e <;> simp [Interfaces.coordinatorRun, Interfaces.coordinate, Action.killArg] at hp
    exact ⟨hp, by omega⟩
  · intro p hp
    cases e2 <;> simp [V1.coordinatorRun, V1.coordinate, Action.killArg] at hp
    exact ⟨hp, by omega⟩

/-- Witness for C6 at a concrete input: child pid 1, one relayed SIGTERM,
and the stream-writer completion observed first by both coordinators. -/
theorem signals_target_process_group_witness :
    (0 : Int) < 1
    ∧ (commandSysProcAttr.effectivePgid 1 = some 1
       ∧ GroupAddressed 1 (forwardSignalsRun 1 ([SigNum.sigterm].map OsSignal.syscallSig)).1
       ∧ GroupAddressed 1 (Interfaces.coordinatorRun 1 [Interfaces.DoneEvent.stdin])
       ∧ GroupAddressed 1 (V1.coordinatorRun 1 [V1.DoneEvent.stdin])) :=
  ⟨by decide,
   signals_target_process_group 1 (by decide) [SigNum.sigterm]
     Interfaces.DoneEvent.stdin [] V1.DoneEvent.stdin []⟩

/-- Claim C7: post-spawn failures are non-fatal. For every pattern of
stdin-write failures the Stream Writer attempts every message exactly once
and still reaches its terminal action (the run has exactly one action per
message plus the terminal one), and for every codec the merged-mode reader
emits exactly the lines that decode, in order, drops the rest, and still
closes its channel and raises its completion signal exactly once; no error
value is returned to the caller by either loop. -/
theorem postSpawn_errors_nonfatal (writeOk : Bytes → Bool) (msgs : List Bytes)
    (parse : Bytes → Option Bytes) (pipe : Bytes) :
    (V2.sendStdin writeOk msgs).length = msgs.length + 1
    ∧ (V1.sendStdin writeOk msgs).length = msgs.length + 1
    ∧ (V2.sendStdin writeOk msgs).countP (fun a => a.isWrite) = msgs.length
    ∧ (Interfaces.sendStdin writeOk msgs).countP (fun a => a.isWrite) = msgs.length
    ∧ emittedStdout (Interfaces.recvStdout parse pipe) = (scanLines pipe).filterMap parse
    ∧ (Interfaces.recvStdout parse pipe).count (Action.closeChan StreamId.stdout) = 1
    ∧ (Interfaces.recvStdout parse pipe).count (Action.doneSignal TaskId.stdoutTask) = 1 := by
  refine ⟨?_, ?_, ?_, ?_, ?_, ?_, ?_⟩
  · rw [sendStdinV2_eq]
    simp
  · rw [sendStdinV1_eq]
    simp
  · rw [sendStdinV2_eq]
    simp [List.countP_append, List.countP_map, Function.comp, Action.isWrite, List.countP_true]
  · induction msgs with
    | nil => rfl
    | cons m rest ih =>
        by_cases hw : writeOk (m ++ [10])
        · have ht : Interfaces.sendStdin writeOk (m :: rest)
              = Action.write (m ++ [10]) true :: Interfaces.sendStdin writeOk rest := by
            simp [Interfaces.sendStdin, hw]
          rw [ht, List.countP_cons, ih]
          simp [Action.isWrite]
        · have ht : Interfaces.sendStdin writeOk (m :: rest)
              = Action.write (m ++ [10]) false :: Action.logWriteError
                :: Interfaces.sendStdin writeOk rest := by
            simp [Interfaces.sendStdin, hw]
          rw [ht, List.countP_cons, List.countP_cons, ih]
          simp [Action.isWrite]
  · rw [Interfaces.recvStdout, emittedStdout, List.filterMap_append]
    have htail :
        ([Action.closeChan StreamId.stdout,
          Action.doneSignal TaskId.stdoutTask].filterMap fun a =>
            match a with
            | Action.emit StreamId.stdout d => some d
            | _ => none) = [] := rfl
    rw [htail, List.append_nil]
    induction scanLines pipe with
    | nil => rfl
    | cons l ls ih =>
        cases hp : parse l <;>
          simp [List.flatMap_cons, List.filterMap_append, ih, List.filterMap_cons, hp]
  · rw [Interfaces.recvStdout, List.count_append]
    have hz : ((scanLines pipe).flatMap fun l =>
        match parse l with
        | some m => [Action.emit StreamId.stdout m]
        | none => [Action.logParseError]).count (Action.closeChan StreamId.stdout) = 0 := by
      rw [List.count_eq_zero]
      intro hm
      rcases List.mem_flatMap.mp hm with ⟨l, _, hin⟩
      cases hp : parse l <;> rw [hp] at hin <;> simp at hin
    rw [hz]
    rfl
  · rw [Interfaces.recvStdout, List.count_append]
    have hz : ((scanLines pipe).flatMap fun l =>
        match parse l with
        | some m => [Action.emit StreamId.stdout m]
        | none => [Action.logParseError]).count (Action.doneSignal TaskId.stdoutTask) = 0 := by
      rw [List.count_eq_zero]
      intro hm
      rcases List.mem_flatMap.mp hm with ⟨l, _, hin⟩
      cases hp : parse l <;> rw [hp] at hin <;> simp at hin
    rw [hz]
    rfl

/-- Claim C8: spawning fails with the invalid-argument error exactly when
the argument list is empty, in every variant; on an empty list nothing is
spawned — no task is started and no channel is created — and on a
non-empty list the invalid-argument error is never the result, whatever
the environment does. -/
theorem spawn_invalidArgument_iff (args : List String) (env : SpawnEnv) :
    ((V2.NewProcess args env).result = some GoError.noArguments ↔ args = [])
    ∧ ((Interfaces.StartProcess args env).result = some GoError.noArguments ↔ args = [])
    ∧ ((V1.NewProcess args env).result = some GoError.noArguments ↔ args = [])
    ∧ V2.NewProcess [] env
        = { result := some GoError.noArguments, channelsReturned := false, tasksStarted := [] }
    ∧ Interfaces.StartProcess [] env
        = { result := some GoError.noArguments, channelsReturned := false, tasksStarted := [] }
    ∧ V1.NewProcess [] env
        = { result := some GoError.noArguments, channelsReturned := false, tasksStarted := [] } := by
  rcases env with ⟨si, so, se, st⟩
  cases args with
  | nil =>
      refine ⟨by simp [V2.NewProcess], by simp [Interfaces.StartProcess],
        by simp [V1.NewProcess], rfl, rfl, rfl⟩
  | cons a rest =>
      have h1 : (a :: rest).length = 0 ↔ False := by simp
      refine ⟨?_, ?_, ?_, rfl, rfl, rfl⟩ <;>
        cases si <;> cases so <;> cases se <;> cases st <;>
          simp [V2.NewProcess, Interfaces.StartProcess, V1.NewProcess, getReaders]

/-- Witness for C8 at concrete inputs: the empty argument list yields the
invalid-argument error. -/
theorem spawn_invalidArgument_iff_witness :
    (V2.NewProcess [] ⟨none, none, none, none⟩).result = some GoError.noArguments :=
  ((spawn_invalidArgument_iff [] ⟨none, none, none, none⟩).1).mpr rfl

/-- Claim C9 (code bug): the split-mode readers send `Scanner.Bytes` views
into the scanner's internal buffer on their output channel, and a later
`Scan` overwrites that buffer. In the failing scenario — the child writes
the lines `aaa` and `bbb`, delivered in two reads to a scanner whose
backing buffer holds 6 bytes — the reader sends the same view (offset 0,
length 3) for both messages; the first message reads `aaa` when it is
emitted, but after the reader's next `Scan` the very same view reads
`bbb`: the first message's bytes were mutated after creation, contradicting
message immutability. -/
theorem message_bytes_overwritten_after_emission :
    recvStdoutViews aliasBuf0 = [{ off := 0, len := 3 }, { off := 0, len := 3 }]
    ∧ derefSlice aliasStep1.2.buf aliasStep1.1 = [97, 97, 97]
    ∧ derefSlice aliasStep2.2.buf aliasStep1.1 = [98, 98, 98]
    ∧ ([97, 97, 97] : List Nat) ≠ [98, 98, 98] :=
  ⟨rfl, rfl, rfl, by decide⟩

end GoProcess
